import Mathlib

/-!
Shallow embedding of `aws/data_source_aws_lb.go` from the
terraform-provider-aws repository: the `dataSourceAwsLb` schema and the
`dataSourceAwsLbRead` read operation, together with the external
collaborators they call (the ELBv2 API client, the key/value tag helpers,
and the plugin framework's `ResourceData`).  Machine integers are modelled
as `Int` with the explicit 64-bit bounds check where the source performs
one (`strconv.Atoi` on the idle-timeout value), fallible Go code returns
`Except String`, and Go `nil`-able pointers become `Option`.
-/

set_option autoImplicit false

namespace AwsLb

/-- An AWS API error as seen through `tfawserr`: a distinguishable error
code plus a message.  `tfawserr.ErrCodeEquals` compares the code. -/
structure ApiError where
  code : String
  message : String
deriving Repr, DecidableEq, Inhabited

/-- The rendering of `awserr.Error`, `code: message`; `fmt.Errorf("...: %w", err)`
appends this rendering. -/
def ApiError.render (e : ApiError) : String :=
  e.code ++ ": " ++ e.message

/-- The SDK constant `elbv2.ErrCodeLoadBalancerNotFoundException`. -/
def errCodeLoadBalancerNotFoundException : String :=
  "LoadBalancerNotFoundException"

/-- The check `tfawserr.ErrCodeEquals(err, code)` on a non-nil error. -/
def errCodeEquals (e : ApiError) (code : String) : Bool :=
  e.code == code

/-- A tag set (`keyvaluetags.KeyValueTags`): a key/value map, embedded as an
association list whose first binding for a key is authoritative. -/
def TagSet := List (String × String)
deriving Repr, DecidableEq, Inhabited

/-- Value of key `k` in a tag set, `none` when absent. -/
def TagSet.lookup (ts : TagSet) (k : String) : Option String :=
  (List.find? (fun p => p.1 == k) ts).map (fun p => p.2)

/-- Modelled from the spec: the tag-set "contains all of" comparison used
for filtering — the source matches only if every key of the target is
present with an exactly equal value.  (`KeyValueTags.ContainsAll` lives in
`aws/internal/keyvaluetags`, outside the provided source.) -/
def TagSet.containsAll (source target : TagSet) : Bool :=
  target.all (fun kv => source.lookup kv.1 == some kv.2)

/-- Whether `p` is a leading substring of `s` (on the character lists, so
that it evaluates by kernel reduction). -/
def strStartsWith (p s : String) : Bool :=
  List.isPrefixOf p.data s.data

/-- Modelled from the spec: `IgnoreAws` drops provider-reserved tag keys
(the system-reserved `aws:` prefix) before comparison or exposure.
(`keyvaluetags` is outside the provided source.) -/
def TagSet.ignoreAws (ts : TagSet) : TagSet :=
  ts.filter (fun kv => !(strStartsWith "aws:" kv.1))

/-- Modelled from the spec: `IgnoreConfig` drops tag keys matching the
user-configured ignore patterns, here a list of key prefixes.
(`keyvaluetags` is outside the provided source.) -/
def TagSet.ignoreConfig (ts : TagSet) (ignored : List String) : TagSet :=
  ts.filter (fun kv => !(ignored.any (fun p => strStartsWith p kv.1)))

/-- One per-zone attachment descriptor (`elbv2.AvailabilityZone` with its
addressing detail), carrying the fields the projector reads. -/
structure AvailabilityZone where
  subnetId : Option String
  outpostId : Option String
  allocationId : Option String
  privateIPv4Address : Option String
  ipv6Address : Option String
deriving Repr, DecidableEq, Inhabited

/-- The `elbv2.LoadBalancer` record, restricted to the fields `dataSourceAwsLbRead`
reads.  Go `*string` fields become `Option String`. -/
structure LoadBalancer where
  loadBalancerArn : Option String
  loadBalancerName : Option String
  scheme : Option String
  securityGroups : List String
  vpcId : Option String
  canonicalHostedZoneId : Option String
  dnsName : Option String
  ipAddressType : Option String
  lbType : Option String
  customerOwnedIpv4Pool : Option String
  availabilityZones : List AvailabilityZone
deriving Repr, DecidableEq, Inhabited

/-- The helper `aws.StringValue`: dereference, with `""` for `nil`. -/
def stringValue (s : Option String) : String :=
  s.getD ""

/-- One page of `DescribeLoadBalancers` results. -/
structure DescribeLoadBalancersOutput where
  loadBalancers : List LoadBalancer
deriving Repr, DecidableEq, Inhabited

/-- The `elbv2.DescribeLoadBalancersInput` request, restricted to the fields the filter
builder writes. -/
structure DescribeLoadBalancersInput where
  loadBalancerArns : Option (List String)
  names : Option (List String)
deriving Repr, DecidableEq, Inhabited

/-- The empty `&elbv2.DescribeLoadBalancersInput{}`. -/
def emptyDescribeInput : DescribeLoadBalancersInput :=
  { loadBalancerArns := none, names := none }

/-- One `elbv2.LoadBalancerAttribute` key/value pair. -/
structure LbAttribute where
  key : String
  value : String
deriving Repr, DecidableEq, Inhabited

/-- Behaviour of one `DescribeLoadBalancersPages` call: the pages the SDK
delivers to the callback (a `none` entry is a `nil` page), and the error
the call returns after the loop, when any. -/
structure PagedResponse where
  pages : List (Option DescribeLoadBalancersOutput)
  callErr : Option ApiError
deriving Repr, DecidableEq, Inhabited

/-- The external environment of one read invocation: the ELBv2 client's
three operations and the process-wide tag-ignore configuration.  The tag
listing appears twice because the read calls it at two different times
(per-candidate during filtering, then once on the resolved identifier);
the external service is stateful, so the two observations may differ. -/
structure Env where
  describeLoadBalancersPages : DescribeLoadBalancersInput → PagedResponse
  listTags : String → Except ApiError TagSet
  listTagsFinal : String → Except ApiError TagSet
  describeLoadBalancerAttributes : String → Except ApiError (List LbAttribute)
  ignoreTagsConfig : List String

/-- The user-supplied lookup criteria: the schema fields `arn`, `name` and
`tags`.  A field is `none` when `d.GetOk` reports it unset (absent or the
zero value). -/
structure Config where
  arn : Option String
  name : Option String
  tags : TagSet
deriving Repr, Inhabited

/-- Lines 164-170: build the list request — filter by `arn` when present,
else by `name` when present, else no server-side filter. -/
def buildDescribeInput (cfg : Config) : DescribeLoadBalancersInput :=
  match cfg.arn with
  | some a => { emptyDescribeInput with loadBalancerArns := some [a] }
  | none =>
    match cfg.name with
    | some n => { emptyDescribeInput with names := some [n] }
    | none => emptyDescribeInput

/-- Lines 174-182, the page callback: a `nil` page contributes nothing;
otherwise its load balancers are appended; either way the callback asks to
continue exactly when this is not the last page. -/
def lbPageFn (acc : List LoadBalancer) (page : Option DescribeLoadBalancersOutput)
    (lastPage : Bool) : List LoadBalancer × Bool :=
  match page with
  | none => (acc, !lastPage)
  | some p => (acc ++ p.loadBalancers, !lastPage)

/-- The SDK paging driver: feed each delivered page to the callback in
order (flagging the final one), stopping early when the callback returns
`false`. -/
def runPageFn : List (Option DescribeLoadBalancersOutput) → List LoadBalancer →
    List LoadBalancer
  | [], acc => acc
  | p :: rest, acc =>
      let (acc', cont) := lbPageFn acc p rest.isEmpty
      if cont then runPageFn rest acc' else acc'

/-- Lines 164-186: build the request, run the paged query, and wrap a call
error as `error retrieving LB`. -/
def describeStage (env : Env) (cfg : Config) : Except String (List LoadBalancer) :=
  let resp := env.describeLoadBalancersPages (buildDescribeInput cfg)
  match resp.callErr with
  | some e => .error ("error retrieving LB: " ++ e.render)
  | none => .ok (runPageFn resp.pages [])

/-- Lines 191-208, the filtering loop body: fetch each candidate's tags;
a `LoadBalancerNotFoundException` drops the candidate, any other fetch
error aborts naming the candidate's ARN, and a successful fetch keeps the
candidate exactly when its tags contain all of `tagsToMatch`. -/
def filterTagsLoop (env : Env) (tagsToMatch : TagSet) :
    List LoadBalancer → Except String (List LoadBalancer)
  | [] => .ok []
  | lb :: rest =>
      let arn := stringValue lb.loadBalancerArn
      match env.listTags arn with
      | .error e =>
          if errCodeEquals e errCodeLoadBalancerNotFoundException then
            filterTagsLoop env tagsToMatch rest
          else
            .error ("error listing tags for (" ++ arn ++ "): " ++ e.render)
      | .ok tags =>
          if !tags.containsAll tagsToMatch then
            filterTagsLoop env tagsToMatch rest
          else
            (filterTagsLoop env tagsToMatch rest).map (fun kept => lb :: kept)

/-- Line 162: the tag predicate after applying the ignore policies. -/
def tagsToMatchOf (env : Env) (cfg : Config) : TagSet :=
  (cfg.tags.ignoreAws).ignoreConfig env.ignoreTagsConfig

/-- Lines 162-211: the resolver — accumulate all pages, then apply the
client-side tag filter when the predicate is non-empty. -/
def resolve (env : Env) (cfg : Config) : Except String (List LoadBalancer) :=
  let tagsToMatch := tagsToMatchOf env cfg
  match describeStage env cfg with
  | .error e => .error e
  | .ok results =>
      if tagsToMatch.length > 0 then
        filterTagsLoop env tagsToMatch results
      else
        .ok results

/-- A subnet-mapping output record (lines 61-85 of the schema). -/
structure SubnetMapping where
  subnetId : String
  outpostId : String
  allocationId : String
  privateIpv4Address : String
  ipv6Address : String
deriving Repr, DecidableEq, Inhabited

/-- The access-log output record: the `accessLogMap` of lines 258-262,
with `pfx` standing for the record's path-`"prefix"` entry. -/
structure AccessLogMap where
  bucket : String
  enabled : Bool
  pfx : String
deriving Repr, DecidableEq, Inhabited

/-- Line 258-262: the default access-log record. -/
def defaultAccessLogMap : AccessLogMap :=
  { bucket := "", enabled := false, pfx := "" }

/-- A value assigned to an output field through `d.Set`. -/
inductive FieldValue where
  | s (v : String)
  | b (v : Bool)
  | i (v : Int)
  | strs (v : List String)
  | subnetMappings (v : List SubnetMapping)
  | accessLogs (v : List AccessLogMap)
  | tagMap (v : TagSet)
deriving Repr, DecidableEq, Inhabited

/-- The keys declared in the `dataSourceAwsLb` schema map (lines 17-154). -/
def lbSchemaKeys : List String :=
  ["arn", "arn_suffix", "name", "internal", "load_balancer_type",
   "security_groups", "subnets", "subnet_mapping", "access_logs",
   "enable_deletion_protection", "enable_http2", "idle_timeout",
   "drop_invalid_header_fields", "vpc_id", "zone_id", "dns_name",
   "ip_address_type", "customer_owned_ipv4_pool", "tags"]

/-- The plugin framework's `schema.ResourceData` as the read sees it: the
resource id and the output fields written so far. -/
structure ResourceData where
  id : String
  fields : List (String × FieldValue)
deriving Repr, DecidableEq, Inhabited

/-- Write (or overwrite) one binding of an output-field list. -/
def setFieldList : List (String × FieldValue) → String → FieldValue →
    List (String × FieldValue)
  | [], k, v => [(k, v)]
  | (k', v') :: rest, k, v =>
      if k' == k then (k, v) :: rest else (k', v') :: setFieldList rest k v

/-- Read one output field back. -/
def ResourceData.lookup (d : ResourceData) (k : String) : Option FieldValue :=
  (List.find? (fun p => p.1 == k) d.fields).map (fun p => p.2)

/-- The framework call `d.Set`: it succeeds and records the value when the key is declared in the
`dataSourceAwsLb` schema; setting an undeclared key fails with the plugin
framework's invalid-address error and leaves the record unchanged. -/
def rdSet (d : ResourceData) (k : String) (v : FieldValue) :
    Except String ResourceData :=
  if k ∈ lbSchemaKeys then
    .ok { d with fields := setFieldList d.fields k v }
  else
    .error ("Invalid address to set: " ++ k)

/-- A `d.Set` whose error result the source discards (the bare
`d.Set(...)` statements of lines 221-231 and 277-289). -/
def rdSetDiscard (d : ResourceData) (k : String) (v : FieldValue) : ResourceData :=
  match rdSet d k v with
  | .ok d' => d'
  | .error _ => d

/-- An `if err := d.Set(...); err != nil { return fmt.Errorf(wrap: %w) }`
statement (lines 233-239, 247-249, 293-295). -/
def rdSetChecked (d : ResourceData) (k : String) (v : FieldValue)
    (wrap : String) : Except String ResourceData :=
  match rdSet d k v with
  | .ok d' => .ok d'
  | .error e => .error (wrap ++ ": " ++ e)

/-- The characters after the first occurrence of `marker`, when any. -/
def afterMarker (marker : List Char) : List Char → Option (List Char)
  | [] => if marker.isEmpty then some [] else none
  | c :: rest =>
      if marker.isPrefixOf (c :: rest) then some ((c :: rest).drop marker.length)
      else afterMarker marker rest

/-- Modelled from the spec: `lbSuffixFromARN` derives the `arn_suffix`
output from the identifier (its code is outside the provided source);
modelled as the portion after the `loadbalancer/` marker, `""` otherwise. -/
def lbSuffixFromARN (arn : Option String) : String :=
  match arn with
  | none => ""
  | some a =>
      match afterMarker "loadbalancer/".data a.data with
      | some tailChars => String.mk tailChars
      | none => ""

/-- Modelled from the spec: the flat subnet-identifier projection of the
availability-zone descriptors (`flattenSubnetsFromAvailabilityZones` is
outside the provided source) — one subnet id per descriptor. -/
def flattenSubnetsFromAvailabilityZones (azs : List AvailabilityZone) :
    List String :=
  azs.map (fun az => stringValue az.subnetId)

/-- Modelled from the spec: the per-subnet mapping projection
(`flattenSubnetMappingsFromAvailabilityZones` is outside the provided
source) — one record per descriptor, absent optional fields rendered
empty. -/
def flattenSubnetMappingsFromAvailabilityZones (azs : List AvailabilityZone) :
    List SubnetMapping :=
  azs.map (fun az =>
    { subnetId := stringValue az.subnetId
      outpostId := stringValue az.outpostId
      allocationId := stringValue az.allocationId
      privateIpv4Address := stringValue az.privateIPv4Address
      ipv6Address := stringValue az.ipv6Address })

/-- Decimal digits to a number. -/
def digitsToNat (ds : List Char) : Nat :=
  ds.foldl (fun n c => 10 * n + (c.toNat - '0'.toNat)) 0

/-- The two failures of `strconv.Atoi`: `strconv.ErrSyntax` and
`strconv.ErrRange`. -/
inductive AtoiError where
  | invalidSyntax
  | outOfRange
deriving Repr, DecidableEq, Inhabited

/-- The parser `strconv.Atoi`: an optional sign followed by at least one
decimal digit, anything else being `ErrSyntax`; a syntactically valid
string whose value overflows the platform `int` — 64 bits here, so
outside `[-2^63, 2^63 - 1]` — is `ErrRange`. -/
def goAtoi (s : String) : Except AtoiError Int :=
  let (neg, ds) :=
    match s.data with
    | '+' :: rest => (false, rest)
    | '-' :: rest => (true, rest)
    | cs => (false, cs)
  if ds.isEmpty then .error .invalidSyntax
  else if ds.all Char.isDigit then
    let n : Int := if neg then -(digitsToNat ds : Int) else (digitsToNat ds : Int)
    if n < -(2 ^ 63) ∨ 2 ^ 63 - 1 < n then .error .outOfRange
    else .ok n
  else .error .invalidSyntax

/-- The message of the `*strconv.NumError` that `strconv.Atoi` returns on
a failure. -/
def atoiErrMsg (s : String) (e : AtoiError) : String :=
  "strconv.Atoi: parsing \x22" ++ s ++ "\x22: " ++
    (match e with
     | .invalidSyntax => "invalid syntax"
     | .outOfRange => "value out of range")

/-- Lines 264-291, the attribute loop: one step of the `switch` on the
attribute key, updating the output record and the access-log map; the
idle-timeout case aborts when `strconv.Atoi` fails.  Unrecognized keys
fall through. -/
def processAttributes (d : ResourceData) (accessLog : AccessLogMap) :
    List LbAttribute → Except String (ResourceData × AccessLogMap)
  | [] => .ok (d, accessLog)
  | attr :: rest =>
      if attr.key = "access_logs.s3.enabled" then
        processAttributes d { accessLog with enabled := attr.value == "true" } rest
      else if attr.key = "access_logs.s3.bucket" then
        processAttributes d { accessLog with bucket := attr.value } rest
      else if attr.key = "access_logs.s3.prefix" then
        processAttributes d { accessLog with pfx := attr.value } rest
      else if attr.key = "idle_timeout.timeout_seconds" then
        match goAtoi attr.value with
        | .error e => .error ("error parsing ALB timeout: " ++ atoiErrMsg attr.value e)
        | .ok timeout =>
            processAttributes (rdSetDiscard d "idle_timeout" (.i timeout)) accessLog rest
      else if attr.key = "routing.http.drop_invalid_header_fields.enabled" then
        processAttributes
          (rdSetDiscard d "drop_invalid_header_fields" (.b (attr.value == "true")))
          accessLog rest
      else if attr.key = "deletion_protection.enabled" then
        processAttributes
          (rdSetDiscard d "enable_deletion_protection" (.b (attr.value == "true")))
          accessLog rest
      else if attr.key = "routing.http2.enabled" then
        processAttributes
          (rdSetDiscard d "enable_http2" (.b (attr.value == "true")))
          accessLog rest
      else if attr.key = "load_balancing.cross_zone.enabled" then
        processAttributes
          (rdSetDiscard d "enable_cross_zone_load_balancing" (.b (attr.value == "true")))
          accessLog rest
      else
        processAttributes d accessLog rest

/-- Lines 258-295: run the attribute loop from the default access-log
record, then assign the one-element `access_logs` list, wrapping an
assignment error. -/
def attributesStage (d : ResourceData) (attrs : List LbAttribute) :
    Except String ResourceData :=
  match processAttributes d defaultAccessLogMap attrs with
  | .error e => .error e
  | .ok (d, accessLog) =>
      rdSetChecked d "access_logs" (.accessLogs [accessLog]) "error setting access_logs"

/-- Lines 219-239: set the resource id, the core fields copied 1:1 from
the entity (their `d.Set` errors are discarded), and the two checked
subnet projections. -/
def coreFieldsStage (d0 : ResourceData) (lb : LoadBalancer) :
    Except String ResourceData :=
  let d : ResourceData := { d0 with id := stringValue lb.loadBalancerArn }
  let d := rdSetDiscard d "arn" (.s (stringValue lb.loadBalancerArn))
  let d := rdSetDiscard d "arn_suffix" (.s (lbSuffixFromARN lb.loadBalancerArn))
  let d := rdSetDiscard d "name" (.s (stringValue lb.loadBalancerName))
  let d := rdSetDiscard d "internal"
    (.b (lb.scheme.isSome && stringValue lb.scheme == "internal"))
  let d := rdSetDiscard d "security_groups" (.strs lb.securityGroups)
  let d := rdSetDiscard d "vpc_id" (.s (stringValue lb.vpcId))
  let d := rdSetDiscard d "zone_id" (.s (stringValue lb.canonicalHostedZoneId))
  let d := rdSetDiscard d "dns_name" (.s (stringValue lb.dnsName))
  let d := rdSetDiscard d "ip_address_type" (.s (stringValue lb.ipAddressType))
  let d := rdSetDiscard d "load_balancer_type" (.s (stringValue lb.lbType))
  let d := rdSetDiscard d "customer_owned_ipv4_pool"
    (.s (stringValue lb.customerOwnedIpv4Pool))
  match rdSetChecked d "subnets"
      (.strs (flattenSubnetsFromAvailabilityZones lb.availabilityZones))
      "error setting subnets" with
  | .error e => .error e
  | .ok d =>
      rdSetChecked d "subnet_mapping"
        (.subnetMappings (flattenSubnetMappingsFromAvailabilityZones lb.availabilityZones))
        "error setting subnet_mapping"

/-- Lines 241-249: the final tag re-fetch on the resolved id, aborting on
any fetch error, then the checked `tags` assignment after applying the
ignore policies. -/
def finalTagsStage (env : Env) (d : ResourceData) : Except String ResourceData :=
  match env.listTagsFinal d.id with
  | .error e =>
      .error ("error listing tags for (" ++ d.id ++ "): " ++ e.render)
  | .ok tags =>
      rdSetChecked d "tags"
        (.tagMap ((tags.ignoreAws).ignoreConfig env.ignoreTagsConfig))
        "error setting tags"

/-- Lines 217-297: the projector, run on the single resolved load
balancer — core fields and subnet projections, the re-fetched tag map,
then the fetched and interpreted attributes. -/
def projectLb (env : Env) (d0 : ResourceData) (lb : LoadBalancer) :
    Except String ResourceData :=
  match coreFieldsStage d0 lb with
  | .error e => .error e
  | .ok d =>
      match finalTagsStage env d with
      | .error e => .error e
      | .ok d =>
          match env.describeLoadBalancerAttributes d.id with
          | .error e => .error ("error retrieving LB Attributes: " ++ e.render)
          | .ok attrs => attributesStage d attrs

/-- Lines 158-297: the whole read — resolve to exactly one load balancer
(a different count is the cardinality error naming it), then project. -/
def dataSourceAwsLbRead (env : Env) (cfg : Config) (d0 : ResourceData) :
    Except String ResourceData :=
  match resolve env cfg with
  | .error e => .error e
  | .ok results =>
      if results.length == 1 then
        match results with
        | lb :: _ => projectLb env d0 lb
        | [] => .error "Search returned 0 results, please revise so only one is returned"
      else
        .error ("Search returned " ++ toString results.length ++
          " results, please revise so only one is returned")

/-- Modelled from the spec: the plugin framework commits the in-progress
record only when `Read` returns no error; a failed invocation leaves the
caller-visible output exactly as before (the framework code is outside
the provided source). -/
def applyReadResult (d0 : ResourceData) (r : Except String ResourceData) :
    ResourceData :=
  match r with
  | .ok d => d
  | .error _ => d0

/-! ### Concrete test fixtures -/

/-- A fresh, empty output record. -/
def rdEmpty : ResourceData :=
  { id := "", fields := [] }

/-- A configuration with no `arn`, no `name` and no tag predicate. -/
def cfgEmpty : Config :=
  { arn := none, name := none, tags := [] }

/-- A non-not-found API failure. -/
def apiErrOther : ApiError :=
  { code := "InternalFailure", message := "boom" }

/-- The not-found API failure tolerated during filtering. -/
def apiErrNotFound : ApiError :=
  { code := errCodeLoadBalancerNotFoundException, message := "gone" }

/-- A minimal load balancer carrying only an ARN. -/
def mkLb (arn : String) : LoadBalancer :=
  { loadBalancerArn := some arn, loadBalancerName := some "n", scheme := none,
    securityGroups := [], vpcId := none, canonicalHostedZoneId := none,
    dnsName := none, ipAddressType := none, lbType := none,
    customerOwnedIpv4Pool := none, availabilityZones := [] }

/-- An environment delivering a fixed single page of load balancers, with
configurable tag listings and a fixed attribute list. -/
def mkEnv (lbs : List LoadBalancer) (tagsF finalF : String → Except ApiError TagSet)
    (attrs : List LbAttribute) : Env :=
  { describeLoadBalancersPages := fun _ =>
      { pages := [some { loadBalancers := lbs }], callErr := none }
    listTags := tagsF
    listTagsFinal := finalF
    describeLoadBalancerAttributes := fun _ => .ok attrs
    ignoreTagsConfig := [] }

/-- An environment whose listing yields no load balancers at all. -/
def envZero : Env :=
  mkEnv [] (fun _ => .ok []) (fun _ => .ok []) []

/-- Three load balancers, no tag filter criteria. -/
def envThree : Env :=
  mkEnv [mkLb "lb-a", mkLb "lb-b", mkLb "lb-c"] (fun _ => .ok []) (fun _ => .ok []) []

/-- Two load balancers tagged `{env: staging}` and `{env: prod, team: x}`
respectively. -/
def envTwoTagged : Env :=
  mkEnv [mkLb "lb-staging", mkLb "lb-prod"]
    (fun arn => if arn = "lb-staging" then .ok [("env", "staging")]
      else .ok [("env", "prod"), ("team", "x")])
    (fun _ => .ok [("env", "prod"), ("team", "x")]) []

/-- One load balancer whose filtering-phase tag fetch reports not-found. -/
def envGone : Env :=
  mkEnv [mkLb "lb-gone"] (fun _ => .error apiErrNotFound) (fun _ => .ok []) []

/-- One load balancer whose filtering-phase tag fetch fails hard. -/
def envBadFetch : Env :=
  mkEnv [mkLb "lb-bad"] (fun _ => .error apiErrOther) (fun _ => .ok []) []

/-- One load balancer whose attribute list sets the cross-zone,
invalid-header-drop and deletion-protection keys to `"true"` and the
HTTP/2 key to a non-`"true"` token. -/
def envCrossZone : Env :=
  mkEnv [mkLb "lb-1"] (fun _ => .ok []) (fun _ => .ok [])
    [ { key := "load_balancing.cross_zone.enabled", value := "true" },
      { key := "routing.http.drop_invalid_header_fields.enabled", value := "true" },
      { key := "deletion_protection.enabled", value := "true" },
      { key := "routing.http2.enabled", value := "false" } ]

/-- One load balancer with a parseable idle-timeout attribute. -/
def envTimeout60 : Env :=
  mkEnv [mkLb "lb-1"] (fun _ => .ok []) (fun _ => .ok [])
    [ { key := "idle_timeout.timeout_seconds", value := "60" } ]

/-- One load balancer with an unparseable idle-timeout attribute. -/
def envTimeoutBad : Env :=
  mkEnv [mkLb "lb-1"] (fun _ => .ok []) (fun _ => .ok [])
    [ { key := "idle_timeout.timeout_seconds", value := "abc" } ]

/-- One load balancer whose idle-timeout attribute is a digit string that
overflows a 64-bit `int`. -/
def envTimeoutRange : Env :=
  mkEnv [mkLb "lb-1"] (fun _ => .ok []) (fun _ => .ok [])
    [ { key := "idle_timeout.timeout_seconds", value := "99999999999999999999" } ]

/-- One load balancer with attributes touching none of the access-log
keys. -/
def envNoAccessLogs : Env :=
  mkEnv [mkLb "lb-1"] (fun _ => .ok []) (fun _ => .ok [])
    [ { key := "deletion_protection.enabled", value := "true" } ]

/-- The record `envNoAccessLogs`'s read produces. -/
def rdOutNoAccessLogs : ResourceData :=
  match dataSourceAwsLbRead envNoAccessLogs cfgEmpty rdEmpty with
  | .ok d => d
  | .error _ => rdEmpty

/-- One load balancer whose final tag re-fetch reports not-found. -/
def envFinalGone : Env :=
  mkEnv [mkLb "lb-1"] (fun _ => .ok []) (fun _ => .error apiErrNotFound) []

/-- A configuration naming both an identifier and a name. -/
def cfgBoth : Config :=
  { arn := some "my-arn", name := some "my-name", tags := [] }

/-- A configuration naming only a name. -/
def cfgNameOnly : Config :=
  { arn := none, name := some "my-name", tags := [] }

/-- A configuration with only a tag predicate. -/
def cfgTagPred : Config :=
  { arn := none, name := none, tags := [("env", "prod")] }

/-! ### Lemmas about the output-record operations -/

theorem find?_setFieldList_self (fields : List (String × FieldValue))
    (k : String) (v : FieldValue) :
    List.find? (fun p => p.1 == k) (setFieldList fields k v) = some (k, v) := by
  induction fields with
  | nil => simp [setFieldList]
  | cons p rest ih =>
      by_cases h : p.1 = k
      · simp [setFieldList, h]
      · simp [setFieldList, h, ih]

theorem find?_setFieldList_ne (fields : List (String × FieldValue))
    (k : String) (v : FieldValue) {k' : String} (h : k ≠ k') :
    List.find? (fun p => p.1 == k') (setFieldList fields k v) =
      List.find? (fun p => p.1 == k') fields := by
  induction fields with
  | nil => simp [setFieldList, h]
  | cons p rest ih =>
      obtain ⟨a, b⟩ := p
      by_cases hp : a = k
      · subst hp
        simp [setFieldList, h]
      · by_cases hq : a = k'
        · subst hq
          simp [setFieldList, hp]
        · simp [setFieldList, hp, hq, ih]

theorem lookup_setFields_self (d : ResourceData) (k : String) (v : FieldValue) :
    ResourceData.lookup { d with fields := setFieldList d.fields k v } k = some v := by
  simp [ResourceData.lookup, find?_setFieldList_self]

theorem lookup_setFields_ne (d : ResourceData) (k : String) (v : FieldValue)
    {k' : String} (h : k ≠ k') :
    ResourceData.lookup { d with fields := setFieldList d.fields k v } k' =
      d.lookup k' := by
  simp [ResourceData.lookup, find?_setFieldList_ne _ _ _ h]

theorem rdSet_ok (d : ResourceData) {k : String} (v : FieldValue)
    (h : k ∈ lbSchemaKeys) :
    rdSet d k v = .ok { d with fields := setFieldList d.fields k v } := by
  simp [rdSet, h]

theorem rdSet_err (d : ResourceData) {k : String} (v : FieldValue)
    (h : k ∉ lbSchemaKeys) :
    rdSet d k v = .error ("Invalid address to set: " ++ k) := by
  simp [rdSet, h]

theorem rdSetChecked_ok (d : ResourceData) {k : String} (v : FieldValue)
    (w : String) (h : k ∈ lbSchemaKeys) :
    rdSetChecked d k v w = .ok { d with fields := setFieldList d.fields k v } := by
  simp [rdSetChecked, rdSet, h]

theorem rdSetDiscard_eq (d : ResourceData) {k : String} (v : FieldValue)
    (h : k ∈ lbSchemaKeys) :
    rdSetDiscard d k v = { d with fields := setFieldList d.fields k v } := by
  simp [rdSetDiscard, rdSet, h]

theorem rdSetDiscard_id (d : ResourceData) (k : String) (v : FieldValue) :
    (rdSetDiscard d k v).id = d.id := by
  by_cases h : k ∈ lbSchemaKeys
  · simp [rdSetDiscard, rdSet, h]
  · simp [rdSetDiscard, rdSet, h]

theorem lookup_rdSetDiscard_ne (d : ResourceData) (k : String) (v : FieldValue)
    {k' : String} (h : k ≠ k') :
    (rdSetDiscard d k v).lookup k' = d.lookup k' := by
  by_cases hmem : k ∈ lbSchemaKeys
  · rw [rdSetDiscard_eq _ _ hmem, lookup_setFields_ne _ _ _ h]
  · simp [rdSetDiscard, rdSet, hmem]

theorem lookup_rdSetDiscard_self (d : ResourceData) {k : String} (v : FieldValue)
    (h : k ∈ lbSchemaKeys) :
    (rdSetDiscard d k v).lookup k = some v := by
  rw [rdSetDiscard_eq _ _ h, lookup_setFields_self]

/-! ### Lemmas about the projector stages -/

theorem coreFieldsStage_ok (d0 : ResourceData) (lb : LoadBalancer) :
    ∃ d, coreFieldsStage d0 lb = .ok d ∧ d.id = stringValue lb.loadBalancerArn := by
  simp only [coreFieldsStage]
  rw [rdSetChecked_ok _ _ _ (by decide)]
  dsimp only
  rw [rdSetChecked_ok _ _ _ (by decide)]
  refine ⟨_, rfl, ?_⟩
  simp [rdSetDiscard_id]

theorem finalTagsStage_err (env : Env) (d : ResourceData) (e : ApiError)
    (h : env.listTagsFinal d.id = .error e) :
    finalTagsStage env d =
      .error ("error listing tags for (" ++ d.id ++ "): " ++ e.render) := by
  unfold finalTagsStage
  rw [h]

theorem finalTagsStage_ok (env : Env) (d : ResourceData) (tags : TagSet)
    (h : env.listTagsFinal d.id = .ok tags) :
    finalTagsStage env d = .ok { d with fields := (setFieldList d.fields "tags"
      (.tagMap ((tags.ignoreAws).ignoreConfig env.ignoreTagsConfig))) } := by
  unfold finalTagsStage
  rw [h]
  dsimp only
  rw [rdSetChecked_ok _ _ _ (by decide)]

theorem projectLb_tags_err (env : Env) (d0 : ResourceData) (lb : LoadBalancer)
    (e : ApiError)
    (h : env.listTagsFinal (stringValue lb.loadBalancerArn) = .error e) :
    projectLb env d0 lb =
      .error ("error listing tags for (" ++ stringValue lb.loadBalancerArn ++
        "): " ++ e.render) := by
  obtain ⟨d, hd, hid⟩ := coreFieldsStage_ok d0 lb
  unfold projectLb
  rw [hd]
  dsimp only
  rw [finalTagsStage_err env d e (by rw [hid]; exact h), hid]

theorem projectLb_to_attributesStage (env : Env) (d0 : ResourceData)
    (lb : LoadBalancer) (tags : TagSet) (attrs : List LbAttribute)
    (htags : env.listTagsFinal (stringValue lb.loadBalancerArn) = .ok tags)
    (hattrs : env.describeLoadBalancerAttributes (stringValue lb.loadBalancerArn) =
      .ok attrs) :
    ∃ d, projectLb env d0 lb = attributesStage d attrs := by
  obtain ⟨d, hd, hid⟩ := coreFieldsStage_ok d0 lb
  unfold projectLb
  rw [hd]
  dsimp only
  rw [finalTagsStage_ok env d tags (by rw [hid]; exact htags)]
  dsimp only
  rw [show ({ d with fields := (setFieldList d.fields "tags"
      (.tagMap ((tags.ignoreAws).ignoreConfig env.ignoreTagsConfig))) } :
        ResourceData).id = d.id from rfl, hid, hattrs]
  exact ⟨_, rfl⟩

/-! ### Lemmas about the attribute loop -/

theorem processAttributes_step_ne_timeout (a : LbAttribute)
    (ha : a.key ≠ "idle_timeout.timeout_seconds") (d : ResourceData)
    (m : AccessLogMap) :
    ∃ d2 m2, (∀ rest, processAttributes d m (a :: rest) = processAttributes d2 m2 rest) ∧
      d2.lookup "idle_timeout" = d.lookup "idle_timeout" := by
  by_cases h1 : a.key = "access_logs.s3.enabled"
  · exact ⟨d, { m with enabled := a.value == "true" },
      fun rest => by simp [processAttributes, h1], rfl⟩
  by_cases h2 : a.key = "access_logs.s3.bucket"
  · exact ⟨d, { m with bucket := a.value },
      fun rest => by simp [processAttributes, h1, h2], rfl⟩
  by_cases h3 : a.key = "access_logs.s3.prefix"
  · exact ⟨d, { m with pfx := a.value },
      fun rest => by simp [processAttributes, h1, h2, h3], rfl⟩
  by_cases h5 : a.key = "routing.http.drop_invalid_header_fields.enabled"
  · exact ⟨rdSetDiscard d "drop_invalid_header_fields" (.b (a.value == "true")), m,
      fun rest => by simp [processAttributes, h1, h2, h3, ha, h5],
      lookup_rdSetDiscard_ne _ _ _ (by decide)⟩
  by_cases h6 : a.key = "deletion_protection.enabled"
  · exact ⟨rdSetDiscard d "enable_deletion_protection" (.b (a.value == "true")), m,
      fun rest => by simp [processAttributes, h1, h2, h3, ha, h5, h6],
      lookup_rdSetDiscard_ne _ _ _ (by decide)⟩
  by_cases h7 : a.key = "routing.http2.enabled"
  · exact ⟨rdSetDiscard d "enable_http2" (.b (a.value == "true")), m,
      fun rest => by simp [processAttributes, h1, h2, h3, ha, h5, h6, h7],
      lookup_rdSetDiscard_ne _ _ _ (by decide)⟩
  by_cases h8 : a.key = "load_balancing.cross_zone.enabled"
  · exact ⟨rdSetDiscard d "enable_cross_zone_load_balancing" (.b (a.value == "true")), m,
      fun rest => by simp [processAttributes, h1, h2, h3, ha, h5, h6, h7, h8],
      lookup_rdSetDiscard_ne _ _ _ (by decide)⟩
  exact ⟨d, m, fun rest => by simp [processAttributes, h1, h2, h3, ha, h5, h6, h7, h8], rfl⟩

theorem processAttributes_step_no_access (a : LbAttribute)
    (h1 : a.key ≠ "access_logs.s3.enabled") (h2 : a.key ≠ "access_logs.s3.bucket")
    (h3 : a.key ≠ "access_logs.s3.prefix") (d : ResourceData) (m : AccessLogMap) :
    (∃ emsg, ∀ rest, processAttributes d m (a :: rest) = .error emsg) ∨
    (∃ d2, ∀ rest, processAttributes d m (a :: rest) = processAttributes d2 m rest) := by
  by_cases h4 : a.key = "idle_timeout.timeout_seconds"
  · cases hv : goAtoi a.value with
    | error e =>
        exact .inl ⟨"error parsing ALB timeout: " ++ atoiErrMsg a.value e,
          fun rest => by simp [processAttributes, h1, h2, h3, h4, hv]⟩
    | ok t =>
        exact .inr ⟨rdSetDiscard d "idle_timeout" (.i t),
          fun rest => by simp [processAttributes, h1, h2, h3, h4, hv]⟩
  by_cases h5 : a.key = "routing.http.drop_invalid_header_fields.enabled"
  · exact .inr ⟨rdSetDiscard d "drop_invalid_header_fields" (.b (a.value == "true")),
      fun rest => by simp [processAttributes, h1, h2, h3, h4, h5]⟩
  by_cases h6 : a.key = "deletion_protection.enabled"
  · exact .inr ⟨rdSetDiscard d "enable_deletion_protection" (.b (a.value == "true")),
      fun rest => by simp [processAttributes, h1, h2, h3, h4, h5, h6]⟩
  by_cases h7 : a.key = "routing.http2.enabled"
  · exact .inr ⟨rdSetDiscard d "enable_http2" (.b (a.value == "true")),
      fun rest => by simp [processAttributes, h1, h2, h3, h4, h5, h6, h7]⟩
  by_cases h8 : a.key = "load_balancing.cross_zone.enabled"
  · exact .inr ⟨rdSetDiscard d "enable_cross_zone_load_balancing" (.b (a.value == "true")),
      fun rest => by simp [processAttributes, h1, h2, h3, h4, h5, h6, h7, h8]⟩
  exact .inr ⟨d, fun rest => by simp [processAttributes, h1, h2, h3, h4, h5, h6, h7, h8]⟩

theorem processAttributes_no_timeout :
    ∀ (attrs : List LbAttribute) (d : ResourceData) (m : AccessLogMap),
    (∀ a ∈ attrs, a.key ≠ "idle_timeout.timeout_seconds") →
    ∃ d' m', processAttributes d m attrs = .ok (d', m') ∧
      d'.lookup "idle_timeout" = d.lookup "idle_timeout"
  | [], d, m, _ => ⟨d, m, rfl, rfl⟩
  | a :: rest, d, m, h => by
      obtain ⟨d2, m2, hstep, hlook⟩ := processAttributes_step_ne_timeout a
        (h a (List.mem_cons_self a rest)) d m
      obtain ⟨d', m', heq, hlook'⟩ := processAttributes_no_timeout rest d2 m2
        (fun x hx => h x (List.mem_cons_of_mem a hx))
      exact ⟨d', m', by rw [hstep, heq], by rw [hlook', hlook]⟩

theorem processAttributes_accessLog_const :
    ∀ (attrs : List LbAttribute) (d : ResourceData) (m : AccessLogMap)
      (d' : ResourceData) (m' : AccessLogMap),
    (∀ a ∈ attrs, a.key ≠ "access_logs.s3.enabled" ∧ a.key ≠ "access_logs.s3.bucket" ∧
      a.key ≠ "access_logs.s3.prefix") →
    processAttributes d m attrs = .ok (d', m') → m' = m
  | [], d, m, d', m', _, heq => by
      have h := Except.ok.inj heq
      exact (congrArg Prod.snd h).symm
  | a :: rest, d, m, d', m', h, heq => by
      obtain ⟨h1, h2, h3⟩ := h a (List.mem_cons_self a rest)
      rcases processAttributes_step_no_access a h1 h2 h3 d m with ⟨emsg, hstep⟩ | ⟨d2, hstep⟩
      · rw [hstep rest] at heq
        cases heq
      · rw [hstep rest] at heq
        exact processAttributes_accessLog_const rest d2 m d' m'
          (fun x hx => h x (List.mem_cons_of_mem a hx)) heq

theorem processAttributes_timeout_ok :
    ∀ (pre : List LbAttribute) (d : ResourceData) (m : AccessLogMap)
      (post : List LbAttribute) (v : String) (t : Int),
    (∀ a ∈ pre, a.key ≠ "idle_timeout.timeout_seconds") →
    (∀ a ∈ post, a.key ≠ "idle_timeout.timeout_seconds") →
    goAtoi v = .ok t →
    ∃ d' m', processAttributes d m
        (pre ++ { key := "idle_timeout.timeout_seconds", value := v } :: post) =
        .ok (d', m') ∧
      d'.lookup "idle_timeout" = some (.i t)
  | [], d, m, post, v, t, _, hpost, hv => by
      obtain ⟨d', m', heq, hlook⟩ := processAttributes_no_timeout post
        (rdSetDiscard d "idle_timeout" (.i t)) m hpost
      refine ⟨d', m', ?_, ?_⟩
      · rw [List.nil_append]
        simp only [processAttributes, hv]
        simp only [reduceIte]
        exact heq
      · rw [hlook, lookup_rdSetDiscard_self _ _ (by decide)]
  | a :: pre, d, m, post, v, t, hpre, hpost, hv => by
      obtain ⟨d2, m2, hstep, hlook⟩ := processAttributes_step_ne_timeout a
        (hpre a (List.mem_cons_self a pre)) d m
      obtain ⟨d', m', heq, hlook'⟩ := processAttributes_timeout_ok pre d2 m2 post v t
        (fun x hx => hpre x (List.mem_cons_of_mem a hx)) hpost hv
      exact ⟨d', m', by rw [List.cons_append, hstep, heq], hlook'⟩

theorem processAttributes_timeout_err :
    ∀ (pre : List LbAttribute) (d : ResourceData) (m : AccessLogMap)
      (post : List LbAttribute) (v : String),
    (∀ a ∈ pre, a.key ≠ "idle_timeout.timeout_seconds") →
    ∀ e, goAtoi v = .error e →
    processAttributes d m
        (pre ++ { key := "idle_timeout.timeout_seconds", value := v } :: post) =
      .error ("error parsing ALB timeout: " ++ atoiErrMsg v e)
  | [], d, m, post, v, _, e, hv => by
      rw [List.nil_append]
      simp only [processAttributes, hv]
      simp
  | a :: pre, d, m, post, v, hpre, e, hv => by
      obtain ⟨d2, m2, hstep, _⟩ := processAttributes_step_ne_timeout a
        (hpre a (List.mem_cons_self a pre)) d m
      rw [List.cons_append, hstep]
      exact processAttributes_timeout_err pre d2 m2 post v
        (fun x hx => hpre x (List.mem_cons_of_mem a hx)) e hv

theorem attributesStage_timeout_ok (d : ResourceData) (pre post : List LbAttribute)
    (v : String) (t : Int)
    (hpre : ∀ a ∈ pre, a.key ≠ "idle_timeout.timeout_seconds")
    (hpost : ∀ a ∈ post, a.key ≠ "idle_timeout.timeout_seconds")
    (hv : goAtoi v = .ok t) :
    ∃ d', attributesStage d
        (pre ++ { key := "idle_timeout.timeout_seconds", value := v } :: post) =
        .ok d' ∧
      d'.lookup "idle_timeout" = some (.i t) := by
  obtain ⟨d1, m1, heq, hlook⟩ :=
    processAttributes_timeout_ok pre d defaultAccessLogMap post v t hpre hpost hv
  unfold attributesStage
  rw [heq]
  dsimp only
  rw [rdSetChecked_ok _ _ _ (by decide)]
  exact ⟨_, rfl, by rw [lookup_setFields_ne _ _ _ (by decide), hlook]⟩

theorem attributesStage_timeout_err (d : ResourceData) (pre post : List LbAttribute)
    (v : String)
    (hpre : ∀ a ∈ pre, a.key ≠ "idle_timeout.timeout_seconds")
    (e : AtoiError) (hv : goAtoi v = .error e) :
    attributesStage d
        (pre ++ { key := "idle_timeout.timeout_seconds", value := v } :: post) =
      .error ("error parsing ALB timeout: " ++ atoiErrMsg v e) := by
  unfold attributesStage
  rw [processAttributes_timeout_err pre d defaultAccessLogMap post v hpre e hv]

theorem attributesStage_of_process_ok (d : ResourceData) (attrs : List LbAttribute)
    (d1 : ResourceData) (m1 : AccessLogMap)
    (h : processAttributes d defaultAccessLogMap attrs = .ok (d1, m1)) :
    attributesStage d attrs =
      .ok { d1 with fields := (setFieldList d1.fields "access_logs"
        (.accessLogs [m1])) } := by
  unfold attributesStage
  rw [h]
  dsimp only
  rw [rdSetChecked_ok _ _ _ (by decide)]

/-! ### Lemmas about the filtering loop -/

theorem filterTagsLoop_cons_err (env : Env) (pred : TagSet) (lb0 : LoadBalancer)
    (rest : List LoadBalancer) (e : ApiError)
    (h : env.listTags (stringValue lb0.loadBalancerArn) = .error e) :
    filterTagsLoop env pred (lb0 :: rest) =
      if errCodeEquals e errCodeLoadBalancerNotFoundException then
        filterTagsLoop env pred rest
      else
        .error ("error listing tags for (" ++ stringValue lb0.loadBalancerArn ++
          "): " ++ e.render) := by
  simp only [filterTagsLoop, h]

theorem filterTagsLoop_cons_ok (env : Env) (pred : TagSet) (lb0 : LoadBalancer)
    (rest : List LoadBalancer) (tags0 : TagSet)
    (h : env.listTags (stringValue lb0.loadBalancerArn) = .ok tags0) :
    filterTagsLoop env pred (lb0 :: rest) =
      if tags0.containsAll pred then
        (filterTagsLoop env pred rest).map (fun kept => lb0 :: kept)
      else
        filterTagsLoop env pred rest := by
  simp only [filterTagsLoop, h]
  by_cases hca : tags0.containsAll pred = true
  · simp [hca]
  · simp [hca]

theorem filterTagsLoop_mem_iff (env : Env) (pred : TagSet) :
    ∀ (results : List LoadBalancer) (out : List LoadBalancer) (lb : LoadBalancer)
      (tags : TagSet),
    env.listTags (stringValue lb.loadBalancerArn) = .ok tags →
    filterTagsLoop env pred results = .ok out →
    (lb ∈ out ↔ lb ∈ results ∧ tags.containsAll pred = true)
  | [], out, lb, tags, _, hrun => by
      cases hrun
      simp
  | lb0 :: rest, out, lb, tags, hfetch, hrun => by
      by_cases hlb : lb = lb0
      · subst hlb
        rw [filterTagsLoop_cons_ok env pred lb rest tags hfetch] at hrun
        by_cases hca : tags.containsAll pred = true
        · rw [if_pos hca] at hrun
          cases hrest : filterTagsLoop env pred rest with
          | error e => rw [hrest] at hrun; simp [Except.map] at hrun
          | ok kept =>
              rw [hrest] at hrun
              simp only [Except.map] at hrun
              cases hrun
              simp [hca]
        · rw [if_neg hca] at hrun
          have hiff := filterTagsLoop_mem_iff env pred rest out lb tags hfetch hrun
          simp only [Bool.not_eq_true] at hca
          simp [List.mem_cons, hiff, hca]
      · cases henv : env.listTags (stringValue lb0.loadBalancerArn) with
        | error e =>
            rw [filterTagsLoop_cons_err env pred lb0 rest e henv] at hrun
            by_cases hc : errCodeEquals e errCodeLoadBalancerNotFoundException = true
            · rw [if_pos hc] at hrun
              have hiff := filterTagsLoop_mem_iff env pred rest out lb tags hfetch hrun
              simp [List.mem_cons, hlb, hiff]
            · rw [if_neg hc] at hrun
              cases hrun
        | ok tags0 =>
            rw [filterTagsLoop_cons_ok env pred lb0 rest tags0 henv] at hrun
            by_cases hca : tags0.containsAll pred = true
            · rw [if_pos hca] at hrun
              cases hrest : filterTagsLoop env pred rest with
              | error e => rw [hrest] at hrun; simp [Except.map] at hrun
              | ok kept =>
                  rw [hrest] at hrun
                  simp only [Except.map] at hrun
                  cases hrun
                  have hiff := filterTagsLoop_mem_iff env pred rest kept lb tags hfetch hrest
                  simp [List.mem_cons, hlb, hiff]
            · rw [if_neg hca] at hrun
              have hiff := filterTagsLoop_mem_iff env pred rest out lb tags hfetch hrun
              simp [List.mem_cons, hlb, hiff]

/-! ### Lemmas about the read dispatch -/

theorem read_of_resolve_error (env : Env) (cfg : Config) (d0 : ResourceData)
    (e : String) (h : resolve env cfg = .error e) :
    dataSourceAwsLbRead env cfg d0 = .error e := by
  unfold dataSourceAwsLbRead
  rw [h]

theorem read_of_resolve_singleton (env : Env) (cfg : Config) (d0 : ResourceData)
    (lb : LoadBalancer) (h : resolve env cfg = .ok [lb]) :
    dataSourceAwsLbRead env cfg d0 = projectLb env d0 lb := by
  unfold dataSourceAwsLbRead
  rw [h]
  rfl

/-! ### Claim theorems -/

/-- C1: after accumulating the list results and applying the optional tag
filter, a surviving count different from one makes the read fail with the
cardinality error naming the exact count found, and the read proceeds
past the check to projection exactly when the count is one. -/
theorem C1_cardinality_check (env : Env) (cfg : Config) (d0 : ResourceData)
    (lbs : List LoadBalancer) (hres : resolve env cfg = .ok lbs) :
    (lbs.length ≠ 1 →
      dataSourceAwsLbRead env cfg d0 =
        .error ("Search returned " ++ toString lbs.length ++
          " results, please revise so only one is returned")) ∧
    (∀ lb, lbs = [lb] →
      dataSourceAwsLbRead env cfg d0 = projectLb env d0 lb) := by
  constructor
  · intro hne
    unfold dataSourceAwsLbRead
    rw [hres]
    dsimp only
    rw [if_neg (by simpa using hne)]
  · intro lb hlb
    subst hlb
    exact read_of_resolve_singleton env cfg d0 lb hres

theorem C1_cardinality_check_witness :
    dataSourceAwsLbRead envZero cfgEmpty rdEmpty =
      .error "Search returned 0 results, please revise so only one is returned" ∧
    dataSourceAwsLbRead envThree cfgEmpty rdEmpty =
      .error "Search returned 3 results, please revise so only one is returned" :=
  ⟨(C1_cardinality_check envZero cfgEmpty rdEmpty [] rfl).1 (by decide),
   (C1_cardinality_check envThree cfgEmpty rdEmpty
     [mkLb "lb-a", mkLb "lb-b", mkLb "lb-c"] rfl).1 (by decide)⟩

/-- C2: with a non-empty tag predicate, a candidate whose tag fetch
succeeds survives the client-side filter exactly when its fetched tag set
contains every key of the predicate with an exactly equal value. -/
theorem C2_tag_filter_conjunctive (env : Env) (pred : TagSet)
    (results out : List LoadBalancer) (lb : LoadBalancer) (tags : TagSet)
    (hpred : pred ≠ [])
    (hfetch : env.listTags (stringValue lb.loadBalancerArn) = .ok tags)
    (hrun : filterTagsLoop env pred results = .ok out) :
    lb ∈ out ↔ lb ∈ results ∧ tags.containsAll pred = true :=
  filterTagsLoop_mem_iff env pred results out lb tags hfetch hrun

theorem C2_tag_filter_conjunctive_witness :
    ((mkLb "lb-prod" ∈ [mkLb "lb-prod"]) ↔
      (mkLb "lb-prod" ∈ [mkLb "lb-staging", mkLb "lb-prod"] ∧
        TagSet.containsAll [("env", "prod"), ("team", "x")] [("env", "prod")] = true)) ∧
    ((mkLb "lb-staging" ∈ [mkLb "lb-prod"]) ↔
      (mkLb "lb-staging" ∈ [mkLb "lb-staging", mkLb "lb-prod"] ∧
        TagSet.containsAll [("env", "staging")] [("env", "prod")] = true)) :=
  ⟨C2_tag_filter_conjunctive envTwoTagged [("env", "prod")]
      [mkLb "lb-staging", mkLb "lb-prod"] [mkLb "lb-prod"] (mkLb "lb-prod")
      [("env", "prod"), ("team", "x")] (by decide) rfl rfl,
   C2_tag_filter_conjunctive envTwoTagged [("env", "prod")]
      [mkLb "lb-staging", mkLb "lb-prod"] [mkLb "lb-prod"] (mkLb "lb-staging")
      [("env", "staging")] (by decide) rfl rfl⟩

/-- C3: during the tag-filtering phase, a candidate whose tag fetch
reports the load-balancer-not-found code is dropped and filtering
continues on the remaining candidates; any other fetch error aborts the
filter with the wrapped error naming the candidate's ARN, and a resolver
error aborts the whole read with that error. -/
theorem C3_filter_fetch_errors (env : Env) (pred : TagSet) (lb : LoadBalancer)
    (rest : List LoadBalancer) (e : ApiError) (hpred : pred ≠ [])
    (hfetch : env.listTags (stringValue lb.loadBalancerArn) = .error e) :
    (errCodeEquals e errCodeLoadBalancerNotFoundException = true →
      filterTagsLoop env pred (lb :: rest) = filterTagsLoop env pred rest) ∧
    (errCodeEquals e errCodeLoadBalancerNotFoundException = false →
      filterTagsLoop env pred (lb :: rest) =
        .error ("error listing tags for (" ++ stringValue lb.loadBalancerArn ++
          "): " ++ e.render)) ∧
    (∀ (cfg : Config) (d0 : ResourceData) (msg : String),
      resolve env cfg = .error msg →
      dataSourceAwsLbRead env cfg d0 = .error msg) := by
  refine ⟨?_, ?_, ?_⟩
  · intro hc
    rw [filterTagsLoop_cons_err env pred lb rest e hfetch, if_pos hc]
  · intro hc
    rw [filterTagsLoop_cons_err env pred lb rest e hfetch,
      if_neg (by simp [hc])]
  · intro cfg d0 msg h
    exact read_of_resolve_error env cfg d0 msg h

theorem C3_filter_fetch_errors_witness :
    filterTagsLoop envGone [("env", "prod")] [mkLb "lb-gone"] =
      filterTagsLoop envGone [("env", "prod")] [] ∧
    filterTagsLoop envBadFetch [("env", "prod")] [mkLb "lb-bad"] =
      .error "error listing tags for (lb-bad): InternalFailure: boom" ∧
    dataSourceAwsLbRead envBadFetch cfgTagPred rdEmpty =
      .error "error listing tags for (lb-bad): InternalFailure: boom" :=
  ⟨(C3_filter_fetch_errors envGone [("env", "prod")] (mkLb "lb-gone") []
      apiErrNotFound (by decide) rfl).1 rfl,
   (C3_filter_fetch_errors envBadFetch [("env", "prod")] (mkLb "lb-bad") []
      apiErrOther (by decide) rfl).2.1 rfl,
   (C3_filter_fetch_errors envBadFetch [("env", "prod")] (mkLb "lb-bad") []
      apiErrOther (by decide) rfl).2.2 cfgTagPred rdEmpty _ rfl⟩

/-- C4: a failing invocation — whatever the error — yields no output
record: the caller-visible state after applying the read result is
exactly the state from before the invocation. -/
theorem C4_no_partial_output (env : Env) (cfg : Config) (d0 : ResourceData)
    (e : String) (h : dataSourceAwsLbRead env cfg d0 = .error e) :
    applyReadResult d0 (dataSourceAwsLbRead env cfg d0) = d0 := by
  rw [h]
  rfl

theorem C4_no_partial_output_witness :
    applyReadResult rdEmpty (dataSourceAwsLbRead envZero cfgEmpty rdEmpty) =
      rdEmpty :=
  C4_no_partial_output envZero cfgEmpty rdEmpty
    "Search returned 0 results, please revise so only one is returned" rfl

/-- C5: each flag's boolean is derived by exact string comparison of the
attribute value with `"true"`, and the invalid-header-drop,
deletion-protection and HTTP/2 flags are recorded under their declared
schema keys — but the cross-zone set targets the key
`enable_cross_zone_load_balancing`, which the `dataSourceAwsLb` schema
does not declare, so that `d.Set` fails, its error is discarded, and the
output record never carries the cross-zone flag. -/
theorem C5_cross_zone_flag_never_set :
    rdSet rdEmpty "enable_cross_zone_load_balancing" (.b true) =
      .error "Invalid address to set: enable_cross_zone_load_balancing" ∧
    (dataSourceAwsLbRead envCrossZone cfgEmpty rdEmpty).toOption.map
        (fun d => (d.lookup "enable_cross_zone_load_balancing",
          d.lookup "drop_invalid_header_fields",
          d.lookup "enable_deletion_protection",
          d.lookup "enable_http2")) =
      some (none, some (.b true), some (.b true), some (.b false)) :=
  ⟨rfl, rfl⟩

/-- C6 (counterexample to the claim as stated): a nil page that is not
the last page does not stop paging — the load balancer arriving on the
page after the nil page is still consumed and accumulated, so the
accumulation is non-empty. -/
theorem C6_null_page_counterexample :
    runPageFn [none, some { loadBalancers := [mkLb "lb-a"] }] [] = [mkLb "lb-a"] ∧
    runPageFn [none, some { loadBalancers := [mkLb "lb-a"] }] [] ≠ [] :=
  ⟨rfl, by decide⟩

/-- C6 (amended): entities are accumulated in arrival order; a null page
contributes no entities and does not abort, and paging continues past a
null page unless it is flagged as the last one — the accumulation is the
concatenation of all non-null pages' entities in arrival order. -/
theorem C6_accumulation_in_order (pages : List (Option DescribeLoadBalancersOutput))
    (acc : List LoadBalancer) :
    runPageFn pages acc =
      acc ++ ((pages.filterMap id).map (fun p => p.loadBalancers)).flatten := by
  induction pages generalizing acc with
  | nil => simp [runPageFn]
  | cons p rest ih =>
      cases p with
      | none =>
          cases rest with
          | nil => simp [runPageFn, lbPageFn]
          | cons q qs => simpa [runPageFn, lbPageFn] using ih acc
      | some pg =>
          cases rest with
          | nil => simp [runPageFn, lbPageFn]
          | cons q qs => simpa [runPageFn, lbPageFn] using ih (acc ++ pg.loadBalancers)

/-- C7: the list request filters by the identifier when one is present
(whether or not a name is also present), else by the name when present,
else carries no server-side filter; the construction is a total function
and never fails. -/
theorem C7_filter_builder (cfg : Config) :
    (∀ a, cfg.arn = some a →
      buildDescribeInput cfg = { loadBalancerArns := some [a], names := none }) ∧
    (cfg.arn = none → ∀ n, cfg.name = some n →
      buildDescribeInput cfg = { loadBalancerArns := none, names := some [n] }) ∧
    (cfg.arn = none → cfg.name = none →
      buildDescribeInput cfg = { loadBalancerArns := none, names := none }) := by
  refine ⟨?_, ?_, ?_⟩
  · intro a ha
    simp [buildDescribeInput, ha, emptyDescribeInput]
  · intro ha n hn
    simp [buildDescribeInput, ha, hn, emptyDescribeInput]
  · intro ha hn
    simp [buildDescribeInput, ha, hn, emptyDescribeInput]

theorem C7_filter_builder_witness :
    buildDescribeInput cfgBoth =
      { loadBalancerArns := some ["my-arn"], names := none } ∧
    buildDescribeInput cfgNameOnly =
      { loadBalancerArns := none, names := some ["my-name"] } ∧
    buildDescribeInput cfgEmpty =
      { loadBalancerArns := none, names := none } :=
  ⟨(C7_filter_builder cfgBoth).1 "my-arn" rfl,
   (C7_filter_builder cfgNameOnly).2.1 rfl "my-name" rfl,
   (C7_filter_builder cfgEmpty).2.2 rfl rfl⟩

/-- C8: when the fetched attribute list carries the idle-timeout key, a
value string that `strconv.Atoi` accepts sets the output idle-timeout
field to the parsed integer, and a value on which `Atoi` fails — a syntax
error or a 64-bit range overflow alike — aborts the whole read with the
wrapped parse error. -/
theorem C8_idle_timeout_parse (env : Env) (cfg : Config) (d0 : ResourceData)
    (lb : LoadBalancer) (tags : TagSet) (pre post : List LbAttribute) (v : String)
    (hres : resolve env cfg = .ok [lb])
    (htags : env.listTagsFinal (stringValue lb.loadBalancerArn) = .ok tags)
    (hattrs : env.describeLoadBalancerAttributes (stringValue lb.loadBalancerArn) =
      .ok (pre ++ { key := "idle_timeout.timeout_seconds", value := v } :: post))
    (hpre : ∀ a ∈ pre, a.key ≠ "idle_timeout.timeout_seconds")
    (hpost : ∀ a ∈ post, a.key ≠ "idle_timeout.timeout_seconds") :
    (∀ e, goAtoi v = .error e →
      dataSourceAwsLbRead env cfg d0 =
        .error ("error parsing ALB timeout: " ++ atoiErrMsg v e)) ∧
    (∀ t, goAtoi v = .ok t →
      ∃ d', dataSourceAwsLbRead env cfg d0 = .ok d' ∧
        d'.lookup "idle_timeout" = some (.i t)) := by
  obtain ⟨d, hproj⟩ := projectLb_to_attributesStage env d0 lb tags _ htags hattrs
  have hread : dataSourceAwsLbRead env cfg d0 = attributesStage d
      (pre ++ { key := "idle_timeout.timeout_seconds", value := v } :: post) := by
    rw [read_of_resolve_singleton env cfg d0 lb hres, hproj]
  constructor
  · intro e hv
    rw [hread]
    exact attributesStage_timeout_err d pre post v hpre e hv
  · intro t hv
    obtain ⟨d', heq, hlook⟩ := attributesStage_timeout_ok d pre post v t hpre hpost hv
    exact ⟨d', by rw [hread, heq], hlook⟩

theorem C8_idle_timeout_parse_witness :
    (∃ d', dataSourceAwsLbRead envTimeout60 cfgEmpty rdEmpty = .ok d' ∧
      d'.lookup "idle_timeout" = some (.i 60)) ∧
    dataSourceAwsLbRead envTimeoutBad cfgEmpty rdEmpty =
      .error "error parsing ALB timeout: strconv.Atoi: parsing \x22abc\x22: invalid syntax" ∧
    dataSourceAwsLbRead envTimeoutRange cfgEmpty rdEmpty =
      .error "error parsing ALB timeout: strconv.Atoi: parsing \x2299999999999999999999\x22: value out of range" :=
  ⟨(C8_idle_timeout_parse envTimeout60 cfgEmpty rdEmpty (mkLb "lb-1") [] [] []
      "60" rfl rfl rfl (by simp) (by simp)).2 60 rfl,
   (C8_idle_timeout_parse envTimeoutBad cfgEmpty rdEmpty (mkLb "lb-1") [] [] []
      "abc" rfl rfl rfl (by simp) (by simp)).1 .invalidSyntax rfl,
   (C8_idle_timeout_parse envTimeoutRange cfgEmpty rdEmpty (mkLb "lb-1") [] [] []
      "99999999999999999999" rfl rfl rfl (by simp) (by simp)).1 .outOfRange rfl⟩

/-- C9: when the fetched attribute list touches none of the three
access-log keys, a successful read's `access_logs` output field is the
one-element list holding exactly the default record
`{enabled: false, bucket: "", prefix: ""}`. -/
theorem C9_access_logs_default (env : Env) (cfg : Config) (d0 : ResourceData)
    (lb : LoadBalancer) (attrs : List LbAttribute) (d' : ResourceData)
    (hres : resolve env cfg = .ok [lb])
    (hattrs : env.describeLoadBalancerAttributes (stringValue lb.loadBalancerArn) =
      .ok attrs)
    (hnone : ∀ a ∈ attrs, a.key ≠ "access_logs.s3.enabled" ∧
      a.key ≠ "access_logs.s3.bucket" ∧ a.key ≠ "access_logs.s3.prefix")
    (hok : dataSourceAwsLbRead env cfg d0 = .ok d') :
    d'.lookup "access_logs" = some (.accessLogs [defaultAccessLogMap]) := by
  rw [read_of_resolve_singleton env cfg d0 lb hres] at hok
  cases htf : env.listTagsFinal (stringValue lb.loadBalancerArn) with
  | error e =>
      rw [projectLb_tags_err env d0 lb e htf] at hok
      cases hok
  | ok tags =>
      obtain ⟨d, hproj⟩ := projectLb_to_attributesStage env d0 lb tags attrs htf hattrs
      rw [hproj] at hok
      cases hpa : processAttributes d defaultAccessLogMap attrs with
      | error e =>
          unfold attributesStage at hok
          rw [hpa] at hok
          cases hok
      | ok pair =>
          obtain ⟨d1, m1⟩ := pair
          have hm : m1 = defaultAccessLogMap :=
            processAttributes_accessLog_const attrs d defaultAccessLogMap d1 m1 hnone hpa
          rw [attributesStage_of_process_ok d attrs d1 m1 hpa] at hok
          cases hok
          rw [lookup_setFields_self, hm]

theorem C9_access_logs_default_witness :
    rdOutNoAccessLogs.lookup "access_logs" =
      some (.accessLogs [defaultAccessLogMap]) :=
  C9_access_logs_default envNoAccessLogs cfgEmpty rdEmpty (mkLb "lb-1")
    [ { key := "deletion_protection.enabled", value := "true" } ] rdOutNoAccessLogs
    rfl rfl (by decide) rfl

/-- C10: after resolution, any error from the final tag re-fetch on the
resolved identifier — the not-found condition included — aborts the whole
read with the wrapped error naming the identifier; the not-found
tolerance of the filtering phase does not apply here. -/
theorem C10_final_refetch_aborts (env : Env) (cfg : Config) (d0 : ResourceData)
    (lb : LoadBalancer) (e : ApiError)
    (hres : resolve env cfg = .ok [lb])
    (herr : env.listTagsFinal (stringValue lb.loadBalancerArn) = .error e) :
    dataSourceAwsLbRead env cfg d0 =
      .error ("error listing tags for (" ++ stringValue lb.loadBalancerArn ++
        "): " ++ e.render) := by
  rw [read_of_resolve_singleton env cfg d0 lb hres]
  exact projectLb_tags_err env d0 lb e herr

theorem C10_final_refetch_aborts_witness :
    dataSourceAwsLbRead envFinalGone cfgEmpty rdEmpty =
      .error "error listing tags for (lb-1): LoadBalancerNotFoundException: gone" :=
  C10_final_refetch_aborts envFinalGone cfgEmpty rdEmpty (mkLb "lb-1")
    apiErrNotFound rfl rfl

end AwsLb
